import Mathlib

/-!
Verification of the tool-augmented generation core of the RAG chatbot
backend (`backend/ai_generator.py`, `backend/search_tools.py`) against its
natural-language specification.

The Python code is shallowly embedded: pure fragments become Lean
functions, the mutable instance state (`AIGenerator.last_model_used`,
`CourseSearchTool.last_sources`, `ToolManager.tools`) is threaded
explicitly, and the external collaborators (the OpenAI-compatible
provider client, `json.loads`, the vector store) are parameters of the
model.  Python exceptions are modelled with `Except`.  Outbound provider
calls are recorded in an explicit call log so that temporal claims
(ordering of fallback attempts, tool rounds) can be stated.
-/

namespace RagCore

/-! ### Python semantics helpers -/

/-- Python truthiness of a string: `""` is falsy, everything else truthy. -/
def pyTruthyStr (s : String) : Bool :=
  !(s == "")

/-- Python truthiness of an optional string (`None` and `""` are falsy). -/
def pyTruthyOptStr : Option String → Bool
  | none => false
  | some s => pyTruthyStr s

/-- Python truthiness of an optional integer (`None` and `0` are falsy). -/
def pyTruthyOptInt : Option Int → Bool
  | none => false
  | some n => n != 0

/-- Python substring containment `needle in hay` (on code points). -/
def pyContains (hay needle : String) : Bool :=
  decide (needle.data <:+: hay.data)

/-- Python `str.lower()`, restricted to ASCII case folding.  All needles
classified against in this code base are ASCII, so this models the
Python behaviour on the strings that matter. -/
def pyLower (s : String) : String :=
  ⟨s.data.map Char.toLower⟩

/-- Python `str.upper()`, restricted to ASCII case folding. -/
def pyUpper (s : String) : String :=
  ⟨s.data.map Char.toUpper⟩

/-- Python string slicing `s[:n]` (on code points). -/
def pyTake (s : String) (n : Nat) : String :=
  ⟨s.data.take n⟩

/-! ### The retrieval collaborator

`vector_store.py` is not among the sources under verification; only its
interface is used by `search_tools.py`.  It is modelled from the spec. -/

/-- Modelled from the spec: the metadata dictionary attached to one
retrieved chunk; `search_tools.py` reads the keys `course_title`
(defaulting to `"unknown"`) and `lesson_number` (possibly missing). -/
structure ChunkMeta where
  course_title : Option String
  lesson_number : Option Int
deriving DecidableEq, Repr

/-- Modelled from the spec: the result shape of the retrieval
collaborator, `search(query, courseFilter?, lessonFilter?) →
(documents[], metadata[], error?)` (`vector_store.SearchResults`). -/
structure SearchResults where
  documents : List String
  metadata : List ChunkMeta
  error : Option String
deriving DecidableEq, Repr

/-- Modelled from the spec: `SearchResults.is_empty` — an empty result
set carries no documents. -/
def SearchResults.is_empty (r : SearchResults) : Bool :=
  r.documents.isEmpty

/-- Modelled from the spec: the retrieval collaborator consumed by the
tools: `search` and the lesson-link lookup `get_lesson_link`. -/
structure VectorStore where
  search : String → Option String → Option Int → SearchResults
  get_lesson_link : String → Int → Option String

/-- A citation entry: `{"label": ..., "url": ...}` as built by
`CourseSearchTool._format_results`. -/
structure SourceCitation where
  label : String
  url : Option String
deriving DecidableEq, Repr

/-! ### CourseSearchTool (`search_tools.py`) -/

/-- The state of one `CourseSearchTool` instance: its vector store and
the mutable `last_sources` field. -/
structure CourseSearchTool where
  store : VectorStore
  last_sources : List SourceCitation

/-- The loop body of `CourseSearchTool._format_results`
(`search_tools.py:100-123`): for every `(doc, meta)` pair build the
bracketed context header and the block, and in parallel the structured
source with label and optional lesson link. -/
def formatLoop (store : VectorStore) :
    List (String × ChunkMeta) → List String × List SourceCitation
  | [] => ([], [])
  | (doc, meta) :: rest =>
    let course_title := meta.course_title.getD "unknown"
    let lesson_num := meta.lesson_number
    let header :=
      "[" ++ course_title ++
        (match lesson_num with
          | some n => " - Lesson " ++ toString n
          | none => "") ++ "]"
    let source_label :=
      course_title ++
        (match lesson_num with
          | some n => " - Lesson " ++ toString n
          | none => "")
    let source_url :=
      match lesson_num with
      | some n => store.get_lesson_link course_title n
      | none => none
    let (formatted, sources) := formatLoop store rest
    ((header ++ "\n" ++ doc) :: formatted,
      ⟨source_label, source_url⟩ :: sources)

/-- `CourseSearchTool._format_results` (`search_tools.py:95-128`):
format the blocks, join them with a blank line, and replace the stored
`last_sources` with the sources built during this call. -/
def CourseSearchTool.format_results (t : CourseSearchTool)
    (results : SearchResults) : String × CourseSearchTool :=
  let (formatted, sources) :=
    formatLoop t.store (results.documents.zip results.metadata)
  (String.intercalate "\n\n" formatted, { t with last_sources := sources })

/-- `CourseSearchTool.execute` (`search_tools.py:56-93`): search the
store, return the error text verbatim on a truthy error, an echo of the
applied (truthy) filters on an empty result set, and the formatted
results otherwise. -/
def CourseSearchTool.execute (t : CourseSearchTool) (query : String)
    (course_name : Option String) (lesson_number : Option Int) :
    String × CourseSearchTool :=
  let results := t.store.search query course_name lesson_number
  if pyTruthyOptStr results.error then
    (results.error.getD "", t)
  else if results.is_empty then
    let filter_info :=
      (if pyTruthyOptStr course_name then
        " in course '" ++ course_name.getD "" ++ "'"
      else "") ++
      (if pyTruthyOptInt lesson_number then
        " in lesson " ++ toString (lesson_number.getD 0)
      else "")
    ("No relevant content found" ++ filter_info ++ ".", t)
  else
    t.format_results results

/-! ### Spec-side formatting definitions (for the refinement claims) -/

/-- Written from the spec's words: the optional lesson suffix
" - Lesson n" of a header or citation label. -/
def specLessonSuffix (meta : ChunkMeta) : String :=
  match meta.lesson_number with
  | some n => " - Lesson " ++ toString n
  | none => ""

/-- Written from the spec's words: one formatted block — header
`[<course title>` optionally suffixed ` - Lesson <n>` then `]`, a
newline, then the raw document text. -/
def specBlock (p : String × ChunkMeta) : String :=
  "[" ++ p.2.course_title.getD "unknown" ++ specLessonSuffix p.2 ++ "]" ++
    "\n" ++ p.1

/-- Written from the spec's words: one `{label, url}` citation per
result, the label mirroring the header text, the url resolved via the
lesson-link lookup exactly when a lesson number is present. -/
def specCitation (store : VectorStore) (p : String × ChunkMeta) :
    SourceCitation :=
  { label := p.2.course_title.getD "unknown" ++ specLessonSuffix p.2,
    url :=
      match p.2.lesson_number with
      | some n => store.get_lesson_link (p.2.course_title.getD "unknown") n
      | none => none }

theorem formatLoop_eq_maps (store : VectorStore) :
    ∀ pairs : List (String × ChunkMeta),
      formatLoop store pairs = (pairs.map specBlock, pairs.map (specCitation store))
  | [] => rfl
  | (doc, meta) :: rest => by
    simp only [formatLoop, formatLoop_eq_maps store rest, List.map_cons]
    obtain ⟨ct, ln⟩ := meta
    cases ln <;>
      simp [specBlock, specCitation, specLessonSuffix, String.append_assoc]

/-- C7: for every non-empty retrieval result sequence the content-search
tool formats one block per (document, metadata) pair in the order
returned — header `[<course title>` plus ` - Lesson <n>` exactly when a
lesson number is present, then `]`, a newline and the raw document text,
blocks joined by a blank line — and in parallel builds exactly one
`{label, url}` citation per result whose label mirrors the header text
and whose url is resolved via the lesson-link lookup exactly when a
lesson number is present; in the two-result "Intro to X" scenario the
two headers and the two matching citation labels come out exactly as the
spec states. -/
theorem format_results_blocks_and_citations :
    (∀ (t : CourseSearchTool) (results : SearchResults),
      t.format_results results =
        (String.intercalate "\n\n"
            ((results.documents.zip results.metadata).map specBlock),
          { t with last_sources := (results.documents.zip results.metadata).map (specCitation t.store) })) ∧
    (∀ (store : VectorStore) (p : String × ChunkMeta),
      specBlock p = "[" ++ (specCitation store p).label ++ "]" ++ "\n" ++ p.1) ∧
    (let store : VectorStore :=
      { search := fun _ _ _ => ⟨[], [], none⟩,
        get_lesson_link := fun _ n => some ("http://x/" ++ toString n) }
     let t : CourseSearchTool := ⟨store, []⟩
     let results : SearchResults :=
       ⟨["alpha", "beta"],
        [⟨some "Intro to X", some 1⟩, ⟨some "Intro to X", some 2⟩], none⟩
     (t.format_results results).1 =
        "[Intro to X - Lesson 1]\nalpha\n\n[Intro to X - Lesson 2]\nbeta" ∧
     (t.format_results results).2.last_sources =
        [⟨"Intro to X - Lesson 1", some "http://x/1"⟩,
         ⟨"Intro to X - Lesson 2", some "http://x/2"⟩]) := by
  refine ⟨?_, ?_, ?_, ?_⟩
  · intro t results
    simp [CourseSearchTool.format_results, formatLoop_eq_maps]
  · intro store p
    simp [specBlock, specCitation, String.append_assoc]
  · rfl
  · rfl

/-- C6 counterexample: on an execution that returns a retrieval-error
text, the tool's stored citation list is NOT replaced by the (empty)
citation list derived from that call's results — the stale previous
list survives, contradicting the claim that every execution fully
replaces the stored list. -/
theorem stale_sources_on_error_counterexample :
    (let store : VectorStore :=
      { search := fun _ _ _ => ⟨[], [], some "Search error: backend down"⟩,
        get_lesson_link := fun _ _ => none }
     let t : CourseSearchTool := ⟨store, [⟨"stale label", none⟩]⟩
     (t.execute "q" none none).1 = "Search error: backend down" ∧
     (t.execute "q" none none).2.last_sources = [⟨"stale label", none⟩] ∧
     [(⟨"stale label", none⟩ : SourceCitation)] ≠ []) := by
  exact ⟨rfl, rfl, by simp⟩

/-- C6 amended: the stored citation list is fully replaced (derived
solely from the current call's results, never appended) on every
execution whose retrieval returns non-empty, error-free results;
executions that return a retrieval-error text or the empty-result
message leave the tool state, and hence the stored list, unchanged. -/
theorem sources_replaced_on_result_executions
    (t : CourseSearchTool) (query : String) (course_name : Option String)
    (lesson_number : Option Int) :
    (pyTruthyOptStr (t.store.search query course_name lesson_number).error
        = true →
      (t.execute query course_name lesson_number).2 = t) ∧
    (pyTruthyOptStr (t.store.search query course_name lesson_number).error
        = false →
      (t.store.search query course_name lesson_number).is_empty = true →
      (t.execute query course_name lesson_number).2 = t) ∧
    (pyTruthyOptStr (t.store.search query course_name lesson_number).error
        = false →
      (t.store.search query course_name lesson_number).is_empty = false →
      (t.execute query course_name lesson_number).2.last_sources =
        ((t.store.search query course_name lesson_number).documents.zip
            (t.store.search query course_name lesson_number).metadata).map
          (specCitation t.store)) := by
  refine ⟨fun herr => ?_, fun herr hemp => ?_, fun herr hemp => ?_⟩
  · simp [CourseSearchTool.execute, herr]
  · simp [CourseSearchTool.execute, herr, hemp]
  · simp [CourseSearchTool.execute, herr, hemp,
      CourseSearchTool.format_results, formatLoop_eq_maps]

/-- Witness for the amended C6 theorem at a concrete input: a
non-empty, error-free execution replaces a stale stored list with the
citation derived from the current results. -/
theorem sources_replaced_on_result_executions_witness :
    (let store : VectorStore :=
      { search := fun _ _ _ => ⟨["doc"], [⟨some "T", some 3⟩], none⟩,
        get_lesson_link := fun _ _ => some "http://t/3" }
     let t : CourseSearchTool := ⟨store, [⟨"stale", none⟩]⟩
     (t.execute "q" none none).2.last_sources =
        ((t.store.search "q" none none).documents.zip
            (t.store.search "q" none none).metadata).map
          (specCitation t.store)) := by
  exact (sources_replaced_on_result_executions _ "q" none none).2.2 rfl rfl

/-- C8 counterexample: with an applied lesson filter of 0 (falsy in
Python), the empty-result message does not echo the lesson filter,
contradicting the claim that whichever filters were applied are
echoed. -/
theorem no_content_message_lesson_zero_counterexample :
    (let store : VectorStore :=
      { search := fun _ _ _ => ⟨[], [], none⟩,
        get_lesson_link := fun _ _ => none }
     let t : CourseSearchTool := ⟨store, []⟩
     (t.execute "q" (some "MCP") (some 0)).1 =
        "No relevant content found in course 'MCP'." ∧
     (t.execute "q" (some "MCP") (some 0)).1 ≠
        "No relevant content found in course 'MCP' in lesson 0.") := by
  refine ⟨rfl, ?_⟩
  have h1 : "No relevant content found in course 'MCP'." ≠
      "No relevant content found in course 'MCP' in lesson 0." := by
    intro h
    have h2 := congrArg (fun s => s.data.length) h
    simp at h2
  exact fun h => h1 h

/-- C8 amended: on an empty, error-free retrieval the returned string
states that no relevant content was found and echoes the course filter
exactly when it is truthy (a non-empty string) and the lesson filter
exactly when it is truthy (a nonzero number); with course filter "MCP"
and lesson filter 4 the result is exactly
"No relevant content found in course 'MCP' in lesson 4." -/
theorem no_content_message_echoes_truthy_filters :
    (∀ (t : CourseSearchTool) (q : String) (cn : Option String)
        (ln : Option Int),
      pyTruthyOptStr (t.store.search q cn ln).error = false →
      (t.store.search q cn ln).is_empty = true →
      (t.execute q cn ln).1 =
        "No relevant content found" ++
          (if pyTruthyOptStr cn then " in course '" ++ cn.getD "" ++ "'"
            else "") ++
          (if pyTruthyOptInt ln then " in lesson " ++ toString (ln.getD 0)
            else "") ++ ".") ∧
    (let store : VectorStore :=
      { search := fun _ _ _ => ⟨[], [], none⟩,
        get_lesson_link := fun _ _ => none }
     let t : CourseSearchTool := ⟨store, []⟩
     (t.execute "q" (some "MCP") (some 4)).1 =
        "No relevant content found in course 'MCP' in lesson 4.") := by
  constructor
  · intro t q cn ln herr hemp
    simp [CourseSearchTool.execute, herr, hemp, String.append_assoc]
  · rfl

/-- Witness for the amended C8 theorem at a concrete input. -/
theorem no_content_message_echoes_truthy_filters_witness :
    (let store : VectorStore :=
      { search := fun _ _ _ => ⟨[], [], none⟩,
        get_lesson_link := fun _ _ => none }
     let t : CourseSearchTool := ⟨store, []⟩
     (t.execute "hi" (some "MCP") none).1 =
        "No relevant content found" ++ " in course 'MCP'" ++ "" ++ ".") := by
  exact no_content_message_echoes_truthy_filters.1 _ "hi" (some "MCP") none
    rfl rfl

/-! ### Character case folding facts

Used to show the error classification is a case-insensitive substring
match (`Char.toLower`/`Char.toUpper` fold the ASCII range). -/

theorem char_toNat_ofNat_valid (n : Nat) (h : n.isValidChar) :
    (Char.ofNat n).toNat = n := by
  simp only [Char.ofNat, h, dif_pos]
  rfl

theorem char_ofNat_toNat (c : Char) : Char.ofNat c.toNat = c := by
  have hv : c.toNat.isValidChar := c.valid
  simp only [Char.ofNat, hv, dif_pos]
  exact Char.ext (UInt32.ext rfl)

theorem char_toLower_toUpper (c : Char) : c.toUpper.toLower = c.toLower := by
  unfold Char.toUpper Char.toLower
  by_cases h : 97 ≤ c.toNat ∧ c.toNat ≤ 122
  · have hv : (c.toNat - 32).isValidChar := Or.inl (by omega)
    simp only [h, and_self, if_true, char_toNat_ofNat_valid _ hv]
    have h2 : 65 ≤ c.toNat - 32 ∧ c.toNat - 32 ≤ 90 := by omega
    simp only [h2, and_self, if_true]
    have h4 : c.toNat - 32 + 32 = c.toNat := by omega
    rw [h4, char_ofNat_toNat]
    have h3 : ¬ (65 ≤ c.toNat ∧ c.toNat ≤ 90) := by omega
    simp [h3]
  · simp only [if_neg h]

theorem char_toUpper_toLower (c : Char) : c.toLower.toUpper = c.toUpper := by
  unfold Char.toUpper Char.toLower
  by_cases h : 65 ≤ c.toNat ∧ c.toNat ≤ 90
  · have hv : (c.toNat + 32).isValidChar := Or.inl (by omega)
    simp only [h, and_self, if_true, char_toNat_ofNat_valid _ hv]
    have h2 : 97 ≤ c.toNat + 32 ∧ c.toNat + 32 ≤ 122 := by omega
    simp only [h2, and_self, if_true]
    have h4 : c.toNat + 32 - 32 = c.toNat := by omega
    rw [h4, char_ofNat_toNat]
    have h3 : ¬ (97 ≤ c.toNat ∧ c.toNat ≤ 122) := by omega
    simp [h3]
  · simp only [if_neg h]

theorem map_toLower_map_toUpper (l : List Char) :
    (l.map Char.toUpper).map Char.toLower = l.map Char.toLower := by
  simp [List.map_map, Function.comp_def, char_toLower_toUpper]

theorem map_toUpper_map_toLower (l : List Char) :
    (l.map Char.toLower).map Char.toUpper = l.map Char.toUpper := by
  simp [List.map_map, Function.comp_def, char_toUpper_toLower]

/-- An upper-cased substring test is the same test as the lower-cased
one, whenever the two needles are case images of each other. -/
theorem pyContains_upper_eq_lower (e nu nl : String)
    (h1 : nu.data.map Char.toLower = nl.data)
    (h2 : nl.data.map Char.toUpper = nu.data) :
    pyContains (pyUpper e) nu = pyContains (pyLower e) nl := by
  simp only [pyContains, pyUpper, pyLower, decide_eq_decide]
  constructor
  · rintro ⟨s, t, hst⟩
    refine ⟨s.map Char.toLower, t.map Char.toLower, ?_⟩
    have h3 := congrArg (List.map Char.toLower) hst
    simpa [Function.comp_def, char_toLower_toUpper, h1] using h3
  · rintro ⟨s, t, hst⟩
    refine ⟨s.map Char.toUpper, t.map Char.toUpper, ?_⟩
    have h3 := congrArg (List.map Char.toUpper) hst
    simpa [Function.comp_def, char_toUpper_toLower, h2] using h3

/-! ### The orchestrator data model (`ai_generator.py`) -/

/-- A parsed JSON value, as delivered by `json.loads` for a tool-call
argument object. -/
inductive JVal where
  | str (s : String)
  | num (n : Int)
  | boolean (b : Bool)
  | null
deriving DecidableEq, Repr

/-- A parsed tool-argument mapping (a JSON object). -/
abbrev ArgMap := List (String × JVal)

/-- A tool definition is an opaque blob to the orchestrator (it only
attaches or omits the list it was given). -/
abbrev ToolDef := String

/-- The `function` part of a provider tool call: name and the raw
JSON-encoded argument string. -/
structure ToolCallFunction where
  name : String
  arguments : String
deriving DecidableEq, Repr

/-- One provider-requested tool call (`tc.id`, `tc.function`). -/
structure ToolCall where
  id : String
  function : ToolCallFunction
deriving DecidableEq, Repr

/-- A provider response, flattened to the only choice the code reads
(`response.choices[0]`): its finish reason, message content and
requested tool calls (`None` and `[]` behave identically in the code,
so both are the empty list). -/
structure Response where
  finish_reason : String
  content : Option String
  tool_calls : List ToolCall
deriving DecidableEq, Repr

/-- One transcript message, as built by `generate_response` and
`_process_tool_round`. -/
inductive Msg where
  | system (content : String)
  | user (content : String)
  | assistant (content : Option String) (tool_calls : List ToolCall)
  | tool (tool_call_id : String) (content : String)
deriving DecidableEq, Repr

/-- The parameters of one outbound `chat.completions.create` call:
the base parameters (`temperature=0`, `max_tokens=800`), messages,
model, and the optional tool definitions with tool choice (absent keys
are `none`). -/
structure ApiParams where
  temperature : Nat
  max_tokens : Nat
  messages : List Msg
  model : String
  tools : Option (List ToolDef)
  tool_choice : Option String
deriving DecidableEq, Repr

/-- Instrumentation: the record of one outbound provider call — the
parameters sent, the value of the round counter when it was issued
(0 for the initial call), and the outcome the provider returned. -/
structure CallRec where
  params : ApiParams
  round : Nat
  result : Except String Response

/-- The mutable state of one `AIGenerator` instance (`__init__`),
together with the registry state it drives (`tool_manager`, of an
abstract type `τ`) and the instrumentation fields `calls` (the log of
outbound provider calls) and `rounds` (how many tool rounds have been
processed). -/
structure AIGenerator (τ : Type) where
  current_model : String
  fallback_models : List String
  last_model_used : String
  tool_manager : τ
  calls : List CallRec
  rounds : Nat

/-- The external collaborators of the orchestrator: the provider client
(`create`, indexed by how many calls were made before), `json.loads` on
argument strings (`parse_json`, `none` = `JSONDecodeError`), and the
registry dispatch `tool_manager.execute_tool` (an `Except.error` is a
raised Python exception). -/
structure ProviderEnv (τ : Type) where
  create : Nat → ApiParams → Except String Response
  parse_json : String → Option ArgMap
  execute_tool : τ → String → ArgMap → Except String (String × τ)

/-- `AIGenerator.MAX_TOOL_ROUNDS` (`ai_generator.py:12`). -/
def MAX_TOOL_ROUNDS : Nat := 2

/-- One outbound provider call: consult the collaborator and log the
attempt. -/
def apiCreate {τ : Type} (env : ProviderEnv τ) (s : AIGenerator τ)
    (p : ApiParams) (round : Nat) :
    Except String Response × AIGenerator τ :=
  let r := env.create s.calls.length p
  (r, { s with calls := s.calls ++ [⟨p, round, r⟩] })

/-- The inline error classification of `generate_response`
(`ai_generator.py:183-190`), applied once every model in the chain has
failed on the initial call path. -/
def initialErrorMessage (error_msg : String) : String :=
  if pyContains error_msg "Connection error" ||
      pyContains (pyLower error_msg) "connect" then
    "I'm unable to connect to the AI service. Please check your network connection or try again later."
  else if pyContains (pyUpper error_msg) "CERTIFICATE" ||
      pyContains (pyUpper error_msg) "SSL" then
    "I'm experiencing SSL/certificate issues connecting to the AI service. Please contact support."
  else if pyContains (pyLower error_msg) "timeout" then
    "The AI service request timed out. Please try again."
  else
    "I'm experiencing technical difficulties. Error: " ++ pyTake error_msg 100

/-- `AIGenerator._handle_api_error` (`ai_generator.py:377-399`): the
in-round classification; `messages` and `round_num` are accepted but
unused, as in the source. -/
def handle_api_error (error_msg : String) (messages : List Msg)
    (round_num : Nat) : String :=
  if pyContains error_msg "Connection error" ||
      pyContains (pyLower error_msg) "connect" then
    "I'm unable to connect to the AI service. Please check your network connection or try again later."
  else if pyContains (pyUpper error_msg) "CERTIFICATE" ||
      pyContains (pyUpper error_msg) "SSL" then
    "I'm experiencing SSL/certificate issues connecting to the AI service. Please contact support."
  else if pyContains (pyLower error_msg) "timeout" then
    "The AI service request timed out. Please try again."
  else
    "I'm experiencing technical difficulties processing your request."

/-- The per-call body of the loop in `AIGenerator._process_tool_round`
(`ai_generator.py:291-313`): parse the JSON argument string (degrading
to an empty mapping on a decode error), dispatch through the registry,
and convert a raised exception into a textual result. -/
def exec_one_tool_call {τ : Type} (env : ProviderEnv τ) (tm : τ)
    (tc : ToolCall) : String × τ :=
  match env.execute_tool tm tc.function.name
      ((env.parse_json tc.function.arguments).getD []) with
  | .ok (tool_result, tm') => (tool_result, tm')
  | .error e => ("Error executing tool: " ++ e, tm)

/-- The loop of `AIGenerator._process_tool_round`: execute every tool
call of the round in order, appending one `tool` result message per
call. -/
def execToolCalls {τ : Type} (env : ProviderEnv τ) (tm : τ) :
    List ToolCall → List Msg × τ
  | [] => ([], tm)
  | tc :: rest =>
    let one := exec_one_tool_call env tm tc
    let further := execToolCalls env one.2 rest
    (Msg.tool tc.id one.1 :: further.1, further.2)

/-- The assistant message re-encoding the provider's tool calls
(`ai_generator.py:273-288`). -/
def assistantMsgOf (response : Response) : Msg :=
  Msg.assistant response.content response.tool_calls

/-- `AIGenerator._process_tool_round` (`ai_generator.py:258-315`).
Also bumps the instrumentation round counter. -/
def process_tool_round {τ : Type} (env : ProviderEnv τ)
    (s : AIGenerator τ) (response : Response) (messages : List Msg) :
    List Msg × AIGenerator τ :=
  let executed := execToolCalls env s.tool_manager response.tool_calls
  (messages ++ [assistantMsgOf response] ++ executed.1,
    { s with tool_manager := executed.2, rounds := s.rounds + 1 })

/-- `AIGenerator._build_round_params` (`ai_generator.py:317-342`). -/
def build_round_params (base_params : ApiParams) (messages : List Msg)
    (include_tools : Bool) : ApiParams :=
  { temperature := 0, max_tokens := 800, messages := messages,
    model := base_params.model,
    tools :=
      if include_tools && base_params.tools.isSome then base_params.tools
      else none,
    tool_choice :=
      if include_tools && base_params.tools.isSome then some "auto"
      else none }

/-- The fallback chain (`ai_generator.py:159` and `:358`):
the primary model followed by the fallbacks with the primary removed,
order preserved. -/
def modelsToTry (primary : String) (fallback_models : List String) :
    List String :=
  primary :: fallback_models.filter (fun m => m != primary)

/-- The loop of `AIGenerator._make_api_call_with_fallback`
(`ai_generator.py:360-375`): try each model in order; on success record
`last_model_used` and return; on failure continue unless this was the
last model, in which case the exception propagates.  The `[]` case is
line 375 (`raise Exception("All models failed")`), reachable only on an
empty chain. -/
def fallbackLoop {τ : Type} (env : ProviderEnv τ) (s : AIGenerator τ)
    (api_params : ApiParams) (round : Nat) :
    List String → Except String Response × AIGenerator τ
  | [] => (.error "All models failed", s)
  | model :: rest =>
    let p := { api_params with model := model }
    match apiCreate env s p round with
    | (.ok response, s') => (.ok response, { s' with last_model_used := model })
    | (.error e, s') =>
      if rest.isEmpty then (.error e, s')
      else fallbackLoop env s' api_params round rest

/-- `AIGenerator._make_api_call_with_fallback` (`ai_generator.py:344-375`). -/
def make_api_call_with_fallback {τ : Type} (env : ProviderEnv τ)
    (s : AIGenerator τ) (api_params : ApiParams) (round : Nat)
    (primary_model : String) : Except String Response × AIGenerator τ :=
  fallbackLoop env s api_params round
    (modelsToTry primary_model s.fallback_models)

/-- The `while current_round < MAX_TOOL_ROUNDS` loop of
`AIGenerator._handle_tool_execution` (`ai_generator.py:214-256`),
structured on the remaining fuel `n = MAX_TOOL_ROUNDS - current_round`;
at fuel `n + 1` the loop body runs with the just-incremented counter
`current_round = MAX_TOOL_ROUNDS - n`. -/
def toolLoop {τ : Type} (env : ProviderEnv τ) (s : AIGenerator τ)
    (current_response : Response) (messages : List Msg)
    (base_params : ApiParams) : Nat → String × AIGenerator τ
  | 0 => (current_response.content.getD "", s)
  | n + 1 =>
    if current_response.tool_calls.isEmpty then
      (current_response.content.getD "", s)
    else
      let processed := process_tool_round env s current_response messages
      let current_round := MAX_TOOL_ROUNDS - n
      let include_tools : Bool := decide (current_round < MAX_TOOL_ROUNDS)
      let next_params := build_round_params base_params processed.1 include_tools
      let attempt := make_api_call_with_fallback env processed.2 next_params
        current_round base_params.model
      match attempt.1 with
      | .ok response => toolLoop env attempt.2 response processed.1 base_params n
      | .error e => (handle_api_error e processed.1 current_round, attempt.2)

/-- `AIGenerator._handle_tool_execution` (`ai_generator.py:194-256`):
enter the round loop with `current_round = 0`, i.e. full fuel. -/
def handle_tool_execution {τ : Type} (env : ProviderEnv τ)
    (s : AIGenerator τ) (initial_response : Response) (messages : List Msg)
    (base_params : ApiParams) : String × AIGenerator τ :=
  toolLoop env s initial_response messages base_params MAX_TOOL_ROUNDS

/-- The model loop of `generate_response` (`ai_generator.py:161-190`):
try each model of the chain on the initial call; a success updates
`last_model_used` and either enters tool handling or returns the text;
when the last model fails the inline classification produces the
user-facing message.  The `[]` case is the fall-through return at line
192. -/
def genLoop {τ : Type} (env : ProviderEnv τ) (s : AIGenerator τ)
    (api_params : ApiParams) (messages : List Msg)
    (has_tool_manager : Bool) : List String → String × AIGenerator τ
  | [] =>
    ("I'm unable to process your request. No AI models are currently available.",
      s)
  | model :: rest =>
    let p := { api_params with model := model }
    match apiCreate env s p 0 with
    | (.ok response, s') =>
      let s'' := { s' with last_model_used := model }
      if response.finish_reason == "tool_calls" && has_tool_manager then
        handle_tool_execution env s'' response messages p
      else
        (response.content.getD "", s'')
    | (.error e, s') =>
      if rest.isEmpty then (initialErrorMessage e, s')
      else genLoop env s' api_params messages has_tool_manager rest

/-- The system prompt constant; its text is irrelevant to every claim,
so the transcript model keeps it as an opaque constant. -/
def SYSTEM_PROMPT : String :=
  "You are an AI assistant specialized in course materials and educational content with access to comprehensive tools for course information."

/-- `AIGenerator.generate_response` (`ai_generator.py:117-192`):
build the transcript, attach tool definitions when the `tools` argument
is truthy (a non-empty list), and run the fallback chain. -/
def generate_response {τ : Type} (env : ProviderEnv τ) (s : AIGenerator τ)
    (query : String) (conversation_history : Option String)
    (tools : Option (List ToolDef)) (has_tool_manager : Bool) :
    String × AIGenerator τ :=
  let system_content :=
    if pyTruthyOptStr conversation_history then
      SYSTEM_PROMPT ++ "\n\nPrevious conversation:\n" ++
        conversation_history.getD ""
    else SYSTEM_PROMPT
  let messages := [Msg.system system_content, Msg.user query]
  let toolsTruthy :=
    match tools with
    | some ts => !ts.isEmpty
    | none => false
  let api_params : ApiParams :=
    { temperature := 0, max_tokens := 800, messages := messages,
      model := s.current_model,
      tools := if toolsTruthy then tools else none,
      tool_choice := if toolsTruthy then some "auto" else none }
  genLoop env s api_params messages has_tool_manager
    (modelsToTry s.current_model s.fallback_models)

/-! ### Error classification: spec-side definitions and claim C5 -/

/-- Written from the spec's words: a case-insensitive substring match —
both sides folded to lower case. -/
def ciContains (hay needle : String) : Bool :=
  pyContains (pyLower hay) (pyLower needle)

/-- Written from the spec's words: classification of the underlying
failure description on the initial call path — connectivity-related,
certificate/TLS-related, timeout-related, else the generic
technical-difficulty message exposing only a bounded (100 code point)
prefix of the underlying detail. -/
def specClassifyInitial (e : String) : String :=
  if ciContains e "connect" then
    "I'm unable to connect to the AI service. Please check your network connection or try again later."
  else if ciContains e "certificate" || ciContains e "ssl" then
    "I'm experiencing SSL/certificate issues connecting to the AI service. Please contact support."
  else if ciContains e "timeout" then
    "The AI service request timed out. Please try again."
  else
    "I'm experiencing technical difficulties. Error: " ++ pyTake e 100

/-- Written from the spec's words: classification on the in-round call
path — same categories; the generic message exposes none of the
underlying detail. -/
def specClassifyInRound (e : String) : String :=
  if ciContains e "connect" then
    "I'm unable to connect to the AI service. Please check your network connection or try again later."
  else if ciContains e "certificate" || ciContains e "ssl" then
    "I'm experiencing SSL/certificate issues connecting to the AI service. Please contact support."
  else if ciContains e "timeout" then
    "The AI service request timed out. Please try again."
  else
    "I'm experiencing technical difficulties processing your request."

theorem connect_cond_eq (e : String) :
    (pyContains e "Connection error" || pyContains (pyLower e) "connect") =
      ciContains e "connect" := by
  have hlow : pyLower "connect" = "connect" := by decide
  unfold ciContains
  rw [hlow]
  cases hc : pyContains e "Connection error"
  · simp
  · have h1 : "Connection error".data <:+: e.data := by
      have := of_decide_eq_true hc
      exact this
    have h2 : ("Connection error".data.map Char.toLower) <:+:
        (e.data.map Char.toLower) := h1.map Char.toLower
    have h3 : "connect".data <:+: ("Connection error".data.map Char.toLower) := by
      decide
    have h4 : pyContains (pyLower e) "connect" = true := by
      simp only [pyContains, pyLower, decide_eq_true_eq]
      exact h3.trans h2
    simp [h4]

theorem cert_cond_eq (e : String) :
    (pyContains (pyUpper e) "CERTIFICATE" || pyContains (pyUpper e) "SSL") =
      (ciContains e "certificate" || ciContains e "ssl") := by
  have h1 : pyContains (pyUpper e) "CERTIFICATE" =
      pyContains (pyLower e) "certificate" := by
    apply pyContains_upper_eq_lower <;> decide
  have h2 : pyContains (pyUpper e) "SSL" = pyContains (pyLower e) "ssl" := by
    apply pyContains_upper_eq_lower <;> decide
  have h3 : pyLower "certificate" = "certificate" := by decide
  have h4 : pyLower "ssl" = "ssl" := by decide
  unfold ciContains
  rw [h1, h2, h3, h4]

theorem timeout_cond_eq (e : String) :
    pyContains (pyLower e) "timeout" = ciContains e "timeout" := by
  have h : pyLower "timeout" = "timeout" := by decide
  unfold ciContains
  rw [h]

/-- C5: after the whole fallback chain fails, classification is a
case-insensitive substring match in the fixed order connectivity,
certificate/TLS, timeout, generic.  On the initial call path the
classification equals the spec-side function whose generic branch
exposes only the first 100 code points of the underlying detail; on the
in-round path it equals the spec-side function whose generic branch
exposes none of it; and the exposed prefix really is bounded by 100. -/
theorem error_classification_case_insensitive
    (e : String) (messages : List Msg) (round_num : Nat) :
    initialErrorMessage e = specClassifyInitial e ∧
    handle_api_error e messages round_num = specClassifyInRound e ∧
    (pyTake e 100).length ≤ 100 := by
  refine ⟨?_, ?_, ?_⟩
  · unfold initialErrorMessage specClassifyInitial
    rw [connect_cond_eq, cert_cond_eq, timeout_cond_eq]
  · unfold handle_api_error specClassifyInRound
    rw [connect_cond_eq, cert_cond_eq, timeout_cond_eq]
  · show (String.mk (e.data.take 100)).length ≤ 100
    have h : (String.mk (e.data.take 100)).length = (e.data.take 100).length :=
      rfl
    rw [h, List.length_take]
    omega

/-! ### ToolManager (`search_tools.py:215-253`)

The registry is modelled over content-search tools (the only tool kind
any claim exercises; the outline tool is registered and dispatched the
same way).  A Python `tool.execute(**kwargs)` call binds the keyword
arguments against `execute`'s signature; a mapping that does not bind
(unknown keyword, missing required `query`) raises `TypeError` at the
call site, which the registry does not catch.  Argument values of a
JSON type other than the one the signature expects are not exercised by
any claim and are modelled as type errors at this boundary. -/

/-- Python keyword binding of an optional string parameter
(`course_name`): absent or `null` gives the default `None`. -/
def argAsOptStr : Option JVal → Except String (Option String)
  | none => .ok none
  | some .null => .ok none
  | some (.str s) => .ok (some s)
  | some _ => .error "TypeError: expected a string"

/-- Python keyword binding of an optional integer parameter
(`lesson_number`): absent or `null` gives the default `None`. -/
def argAsOptInt : Option JVal → Except String (Option Int)
  | none => .ok none
  | some .null => .ok none
  | some (.num n) => .ok (some n)
  | some _ => .error "TypeError: expected an integer"

/-- The text of the `TypeError` raised when `execute(**kwargs)` is
called without the required `query` argument. -/
def missingQueryMessage : String :=
  "execute() missing 1 required positional argument: 'query'"

/-- The Python call `t.execute(**args)` for a `CourseSearchTool`:
keyword binding against the signature
`execute(query, course_name=None, lesson_number=None)`, then the tool
body.  Binding failures are raised (`Except.error`). -/
def callSearchExecute (t : CourseSearchTool) (args : ArgMap) :
    Except String (String × CourseSearchTool) :=
  if args.any (fun kv =>
      !(kv.1 == "query" || kv.1 == "course_name" ||
        kv.1 == "lesson_number")) then
    .error "execute() got an unexpected keyword argument"
  else
    match List.lookup "query" args with
    | none => .error missingQueryMessage
    | some (.str query) =>
      match argAsOptStr (List.lookup "course_name" args),
          argAsOptInt (List.lookup "lesson_number" args) with
      | .ok course_name, .ok lesson_number =>
        .ok (t.execute query course_name lesson_number)
      | .error e, _ => .error e
      | _, .error e => .error e
    | some _ => .error "TypeError: expected a string"

/-- The state of one `ToolManager` instance: the name-keyed dispatch
table `self.tools` (insertion-ordered). -/
structure ToolManager where
  tools : List (String × CourseSearchTool)

/-- In-place mutation of the tool object registered under `name`
(Python mutates the object; the dict keeps pointing at it). -/
def updateTool (name : String) (t' : CourseSearchTool) :
    List (String × CourseSearchTool) → List (String × CourseSearchTool)
  | [] => []
  | (n, t) :: rest =>
    if n == name then (n, t') :: rest
    else (n, t) :: updateTool name t' rest

/-- `ToolManager.execute_tool` (`search_tools.py:234-239`): an unknown
name returns the textual not-found result; a known name forwards the
arguments verbatim to the tool and returns its result verbatim, letting
any exception propagate. -/
def ToolManager.execute_tool (tm : ToolManager) (tool_name : String)
    (args : ArgMap) : Except String (String × ToolManager) :=
  match List.lookup tool_name tm.tools with
  | none => .ok ("Tool '" ++ tool_name ++ "' not found", tm)
  | some t =>
    match callSearchExecute t args with
    | .ok (out, t') => .ok (out, ⟨updateTool tool_name t' tm.tools⟩)
    | .error e => .error e

/-- The non-citation part of the registry state: the registered names
and each tool's store.  Everything of the registry except the
`last_sources` fields. -/
def toolFrame (tm : ToolManager) : List (String × VectorStore) :=
  tm.tools.map (fun p => (p.1, p.2.store))

theorem execute_store_eq (t : CourseSearchTool) (q : String)
    (cn : Option String) (ln : Option Int) :
    (t.execute q cn ln).2.store = t.store := by
  unfold CourseSearchTool.execute
  cases h1 : pyTruthyOptStr (t.store.search q cn ln).error
  · cases h2 : (t.store.search q cn ln).is_empty
    · simp [h1, h2, CourseSearchTool.format_results]
    · simp [h1, h2]
  · simp [h1]

theorem callSearchExecute_store_eq (t : CourseSearchTool) (args : ArgMap)
    (out : String) (t' : CourseSearchTool)
    (h : callSearchExecute t args = .ok (out, t')) : t'.store = t.store := by
  unfold callSearchExecute at h
  split at h
  · exact absurd h (by simp)
  · cases hq : List.lookup "query" args with
    | none =>
      rw [hq] at h
      exact absurd h (by simp)
    | some v =>
      rw [hq] at h
      cases v with
      | str q =>
        cases hcn : argAsOptStr (List.lookup "course_name" args) with
        | error e =>
          rw [hcn] at h
          exact absurd h (by simp)
        | ok cn =>
          cases hln : argAsOptInt (List.lookup "lesson_number" args) with
          | error e =>
            rw [hcn, hln] at h
            exact absurd h (by simp)
          | ok ln =>
            rw [hcn, hln] at h
            simp only [Except.ok.injEq] at h
            have h3 : t' = (t.execute q cn ln).2 := by
              rw [h]
            rw [h3, execute_store_eq]
      | num n =>
        exact absurd h (by simp)
      | boolean b =>
        exact absurd h (by simp)
      | null =>
        exact absurd h (by simp)

theorem updateTool_frame (name : String) (t t' : CourseSearchTool)
    (hst : t'.store = t.store) :
    ∀ tools : List (String × CourseSearchTool),
      List.lookup name tools = some t →
      (updateTool name t' tools).map (fun p => (p.1, p.2.store)) =
        tools.map (fun p => (p.1, p.2.store))
  | [], h => by simp [List.lookup] at h
  | (n, u) :: rest, h => by
    by_cases hn : name = n
    · subst hn
      simp only [List.lookup, beq_self_eq_true, if_pos] at h
      have hu : u = t := by
        simpa using h
      simp [updateTool, hu, hst]
    · have hne : (name == n) = false := by
        simp [hn]
      have hne' : (n == name) = false := by
        simp [Ne.symm hn]
      simp only [List.lookup, hne, if_neg, Bool.false_eq_true] at h
      simp [updateTool, hne', updateTool_frame name t t' hst rest h]

/-- A successful registry dispatch changes nothing of the registry but
the dispatched tool's citation list: names and stores survive. -/
theorem execute_tool_toolFrame (tm : ToolManager) (name : String)
    (args : ArgMap) (out : String) (tm' : ToolManager)
    (h : tm.execute_tool name args = .ok (out, tm')) :
    toolFrame tm' = toolFrame tm := by
  unfold ToolManager.execute_tool at h
  split at h
  · have h2 := Except.ok.inj h
    have h3 : tm' = tm := (congrArg Prod.snd h2).symm
    rw [h3]
  · rename_i t hlook
    split at h
    · rename_i o t' hcall
      have h2 := Except.ok.inj h
      have h3 : tm' = ToolManager.mk (updateTool name t' tm.tools) :=
        (congrArg Prod.snd h2).symm
      have hst := callSearchExecute_store_eq t args o t' hcall
      rw [h3]
      unfold toolFrame
      exact updateTool_frame name t t' hst tm.tools hlook
    · exact absurd h (by simp)

/-! ### Fallback loop lemmas -/

theorem getLast?_cons_of_ne_nil {α : Type} (a : α) :
    ∀ l : List α, l ≠ [] → (a :: l).getLast? = l.getLast?
  | [], h => absurd rfl h
  | _ :: _, _ => List.getLast?_cons_cons

/-- The fallback loop touches none of the orchestrator fields except
`last_model_used` and the call log. -/
theorem fallbackLoop_frame {τ : Type} (env : ProviderEnv τ) (p : ApiParams)
    (round : Nat) :
    ∀ (models : List String) (s : AIGenerator τ),
      (fallbackLoop env s p round models).2.current_model = s.current_model ∧
      (fallbackLoop env s p round models).2.fallback_models =
        s.fallback_models ∧
      (fallbackLoop env s p round models).2.tool_manager = s.tool_manager ∧
      (fallbackLoop env s p round models).2.rounds = s.rounds
  | [], s => by simp [fallbackLoop]
  | m :: rest, s => by
    cases hc : env.create s.calls.length { p with model := m } with
    | ok r => simp [fallbackLoop, apiCreate, hc]
    | error e =>
      cases hrest : rest.isEmpty with
      | true => simp [fallbackLoop, apiCreate, hc, hrest]
      | false =>
        have ih := fallbackLoop_frame env p round rest
          { s with calls := s.calls ++ [⟨{ p with model := m }, round, .error e⟩] }
        simp only [fallbackLoop, apiCreate, hc, hrest] at ih ⊢
        simpa using ih

/-- Every call logged by the fallback loop was issued at the given
round with the given tool attachment. -/
theorem fallbackLoop_calls_shape {τ : Type} (env : ProviderEnv τ)
    (p : ApiParams) (round : Nat) :
    ∀ (models : List String) (s : AIGenerator τ),
      ∀ c ∈ (fallbackLoop env s p round models).2.calls,
        c ∈ s.calls ∨
          (c.round = round ∧ c.params.tools = p.tools ∧
            c.params.tool_choice = p.tool_choice)
  | [], s => by
    intro c hc
    exact .inl (by simpa [fallbackLoop] using hc)
  | m :: rest, s => by
    intro c hc
    cases hcr : env.create s.calls.length { p with model := m } with
    | ok r =>
      simp only [fallbackLoop, apiCreate, hcr] at hc
      simp only [List.mem_append, List.mem_singleton] at hc
      rcases hc with h | h
      · exact .inl h
      · subst h
        exact .inr ⟨rfl, rfl, rfl⟩
    | error e =>
      cases hrest : rest.isEmpty with
      | true =>
        simp only [fallbackLoop, apiCreate, hcr, hrest, if_true] at hc
        simp only [List.mem_append, List.mem_singleton] at hc
        rcases hc with h | h
        · exact .inl h
        · subst h
          exact .inr ⟨rfl, rfl, rfl⟩
      | false =>
        simp only [fallbackLoop, apiCreate, hcr, hrest] at hc
        have ih := fallbackLoop_calls_shape env p round rest
          { s with calls := s.calls ++ [⟨{ p with model := m }, round, .error e⟩] }
          c (by simpa using hc)
        rcases ih with h | h
        · simp only [List.mem_append, List.mem_singleton] at h
          rcases h with h | h
          · exact .inl h
          · subst h
            exact .inr ⟨rfl, rfl, rfl⟩
        · exact .inr h

/-- The chain characterization of the fallback loop: the attempted
models are an initial segment of the chain in order, every attempt
before the last one failed, a success is the last attempt's response,
and a surfaced failure means the whole chain was attempted and the last
attempt produced that failure. -/
theorem fallbackLoop_spec {τ : Type} (env : ProviderEnv τ) (p : ApiParams)
    (round : Nat) :
    ∀ (models : List String) (s : AIGenerator τ), models ≠ [] →
      ∃ recs : List CallRec,
        (fallbackLoop env s p round models).2.calls = s.calls ++ recs ∧
        1 ≤ recs.length ∧
        recs.map (fun c => c.params.model) = models.take recs.length ∧
        (∀ c ∈ recs.dropLast, ∃ e, c.result = .error e) ∧
        (match (fallbackLoop env s p round models).1 with
         | .ok resp => ∃ c, recs.getLast? = some c ∧ c.result = .ok resp
         | .error e =>
            recs.length = models.length ∧
            ∃ c, recs.getLast? = some c ∧ c.result = .error e)
  | [], _, h => absurd rfl h
  | m :: rest, s, _ => by
    cases hcr : env.create s.calls.length { p with model := m } with
    | ok r =>
      refine ⟨[⟨{ p with model := m }, round, .ok r⟩], ?_, ?_, ?_, ?_, ?_⟩ <;>
        simp [fallbackLoop, apiCreate, hcr]
    | error e =>
      cases hrest : rest.isEmpty with
      | true =>
        have hrest' : rest = [] := by
          simpa [List.isEmpty_iff] using hrest
        subst hrest'
        refine ⟨[⟨{ p with model := m }, round, .error e⟩], ?_, ?_, ?_, ?_, ?_⟩ <;>
          simp [fallbackLoop, apiCreate, hcr]
      | false =>
        have hrest' : rest ≠ [] := by
          simpa [List.isEmpty_iff] using hrest
        obtain ⟨recs, hcalls, hlen, hmodels, hfailed, hres⟩ :=
          fallbackLoop_spec env p round rest
            { s with calls := s.calls ++ [⟨{ p with model := m }, round, .error e⟩] }
            hrest'
        have hrecs_ne : recs ≠ [] := by
          intro hnil
          rw [hnil] at hlen
          simp at hlen
        refine ⟨⟨{ p with model := m }, round, .error e⟩ :: recs, ?_, ?_, ?_, ?_, ?_⟩
        · simp only [fallbackLoop, apiCreate, hcr, hrest]
          simpa [List.append_assoc] using hcalls
        · simp
        · simp only [List.map_cons, List.length_cons, List.take_succ_cons]
          rw [hmodels]
        · intro c hcmem
          cases recs with
          | nil => exact absurd rfl hrecs_ne
          | cons r2 recs' =>
            have hdl : ((⟨{ p with model := m }, round, .error e⟩ : CallRec) ::
                r2 :: recs').dropLast =
                ⟨{ p with model := m }, round, .error e⟩ :: (r2 :: recs').dropLast :=
              rfl
            rw [hdl] at hcmem
            rcases List.mem_cons.mp hcmem with h | h
            · exact ⟨e, by rw [h]⟩
            · exact hfailed c h
        · have hstep : (fallbackLoop env s p round (m :: rest)).1 =
              (fallbackLoop env
                { s with calls := s.calls ++ [⟨{ p with model := m }, round, .error e⟩] }
                p round rest).1 := by
            simp [fallbackLoop, apiCreate, hcr, hrest]
          rw [hstep]
          have hlast := getLast?_cons_of_ne_nil
            (⟨{ p with model := m }, round, .error e⟩ : CallRec) recs hrecs_ne
          cases hr : (fallbackLoop env
              { s with calls := s.calls ++ [⟨{ p with model := m }, round, .error e⟩] }
              p round rest).1 with
          | ok resp =>
            rw [hr] at hres
            obtain ⟨c, hc1, hc2⟩ := hres
            exact ⟨c, by rw [hlast, hc1], hc2⟩
          | error e2 =>
            rw [hr] at hres
            obtain ⟨hlen2, c, hc1, hc2⟩ := hres
            exact ⟨by simp [hlen2], c, by rw [hlast, hc1], hc2⟩

/-! ### Round loop invariants -/

/-- A registry-dispatch behaviour that preserves the predicate `P` on
every successful dispatch. -/
def PreservesOnOk {τ : Type} (env : ProviderEnv τ) (P : τ → Prop) : Prop :=
  ∀ tm n a r tm', env.execute_tool tm n a = .ok (r, tm') → P tm → P tm'

theorem exec_one_tool_call_preserves {τ : Type} {env : ProviderEnv τ}
    {P : τ → Prop} (henv : PreservesOnOk env P) (tm : τ) (tc : ToolCall)
    (hp : P tm) : P (exec_one_tool_call env tm tc).2 := by
  unfold exec_one_tool_call
  cases h : env.execute_tool tm tc.function.name
      ((env.parse_json tc.function.arguments).getD []) with
  | ok pr =>
    cases pr with
    | mk r tm' => exact henv _ _ _ _ _ h hp
  | error e => exact hp

theorem execToolCalls_preserves {τ : Type} {env : ProviderEnv τ}
    {P : τ → Prop} (henv : PreservesOnOk env P) :
    ∀ (tcs : List ToolCall) (tm : τ), P tm → P (execToolCalls env tm tcs).2
  | [], _, hp => hp
  | tc :: rest, tm, hp =>
    execToolCalls_preserves henv rest _
      (exec_one_tool_call_preserves henv tm tc hp)

/-- The portmanteau invariant of the round loop: the orchestrator
fields `current_model` and `fallback_models` survive, at most `n` more
rounds are processed, any dispatch-preserved predicate on the registry
state survives, and every newly logged call was issued at a round in
`(MAX_TOOL_ROUNDS - n, MAX_TOOL_ROUNDS]` carrying the base tool
definitions with auto tool choice exactly when its round is below
`MAX_TOOL_ROUNDS`. -/
theorem toolLoop_invariants {τ : Type} (env : ProviderEnv τ) (P : τ → Prop)
    (henv : PreservesOnOk env P) (base_params : ApiParams) :
    ∀ (n : Nat), n ≤ MAX_TOOL_ROUNDS →
      ∀ (s : AIGenerator τ) (resp : Response) (messages : List Msg),
      (toolLoop env s resp messages base_params n).2.current_model =
        s.current_model ∧
      (toolLoop env s resp messages base_params n).2.fallback_models =
        s.fallback_models ∧
      (toolLoop env s resp messages base_params n).2.rounds ≤ s.rounds + n ∧
      (P s.tool_manager →
        P (toolLoop env s resp messages base_params n).2.tool_manager) ∧
      (∀ c ∈ (toolLoop env s resp messages base_params n).2.calls,
        c ∈ s.calls ∨
          (MAX_TOOL_ROUNDS - n < c.round ∧ c.round ≤ MAX_TOOL_ROUNDS ∧
            c.params.tools =
              (if decide (c.round < MAX_TOOL_ROUNDS) &&
                  base_params.tools.isSome then base_params.tools else none) ∧
            c.params.tool_choice =
              (if decide (c.round < MAX_TOOL_ROUNDS) &&
                  base_params.tools.isSome then some "auto" else none))) := by
  intro n
  induction n with
  | zero =>
    intro _ s resp messages
    refine ⟨rfl, rfl, by simp [toolLoop], fun h => h, ?_⟩
    intro c hc
    exact .inl (by simpa [toolLoop] using hc)
  | succ n ih =>
    intro hn s resp messages
    by_cases hempty : resp.tool_calls.isEmpty
    · refine ⟨by simp [toolLoop, hempty], by simp [toolLoop, hempty],
        by simp [toolLoop, hempty], ?_, ?_⟩
      · intro hp
        simpa [toolLoop, hempty] using hp
      · intro c hc
        exact .inl (by simpa [toolLoop, hempty] using hc)
    · have hstep : toolLoop env s resp messages base_params (n + 1) =
          (let processed := process_tool_round env s resp messages
           let current_round := MAX_TOOL_ROUNDS - n
           let include_tools : Bool :=
             decide (current_round < MAX_TOOL_ROUNDS)
           let next_params :=
             build_round_params base_params processed.1 include_tools
           let attempt := make_api_call_with_fallback env processed.2
             next_params current_round base_params.model
           match attempt.1 with
           | .ok response =>
             toolLoop env attempt.2 response processed.1 base_params n
           | .error e =>
             (handle_api_error e processed.1 current_round, attempt.2)) := by
        simp only [toolLoop, hempty]
        rfl
      rw [hstep]
      simp only []
      set processed := process_tool_round env s resp messages with hprocessed
      set next_params := build_round_params base_params processed.1
        (decide (MAX_TOOL_ROUNDS - n < MAX_TOOL_ROUNDS)) with hnext
      set attempt := make_api_call_with_fallback env processed.2 next_params
        (MAX_TOOL_ROUNDS - n) base_params.model with hattempt
      have hframe := fallbackLoop_frame env next_params (MAX_TOOL_ROUNDS - n)
        (modelsToTry base_params.model processed.2.fallback_models) processed.2
      have hshape := fallbackLoop_calls_shape env next_params
        (MAX_TOOL_ROUNDS - n)
        (modelsToTry base_params.model processed.2.fallback_models) processed.2
      have hproc_cm : processed.2.current_model = s.current_model := rfl
      have hproc_fb : processed.2.fallback_models = s.fallback_models := rfl
      have hproc_calls : processed.2.calls = s.calls := rfl
      have hproc_rounds : processed.2.rounds = s.rounds + 1 := rfl
      have hproc_tm : processed.2.tool_manager =
          (execToolCalls env s.tool_manager resp.tool_calls).2 := rfl
      have hatt : attempt = fallbackLoop env processed.2 next_params
          (MAX_TOOL_ROUNDS - n)
          (modelsToTry base_params.model processed.2.fallback_models) := rfl
      -- shape of the calls newly logged by this round's outbound attempt
      have hshape' : ∀ c ∈ attempt.2.calls,
          c ∈ s.calls ∨
            (MAX_TOOL_ROUNDS - (n + 1) < c.round ∧
              c.round ≤ MAX_TOOL_ROUNDS ∧
              c.params.tools =
                (if decide (c.round < MAX_TOOL_ROUNDS) &&
                    base_params.tools.isSome then base_params.tools
                  else none) ∧
              c.params.tool_choice =
                (if decide (c.round < MAX_TOOL_ROUNDS) &&
                    base_params.tools.isSome then some "auto" else none)) := by
        intro c hc
        rw [hatt] at hc
        rcases hshape c hc with h | ⟨hr, htools, hchoice⟩
        · exact .inl (by rwa [hproc_calls] at h)
        · refine .inr ⟨?_, ?_, ?_, ?_⟩
          · rw [hr]
            simp only [MAX_TOOL_ROUNDS] at hn ⊢
            omega
          · rw [hr]
            simp only [MAX_TOOL_ROUNDS]
            omega
          · rw [htools, hnext, hr]
            rfl
          · rw [hchoice, hnext, hr]
            rfl
      cases hres : attempt.1 with
      | ok response =>
        have ihres := ih (by omega) attempt.2 response processed.1
        refine ⟨?_, ?_, ?_, ?_, ?_⟩
        · rw [ihres.1, hatt, hframe.1, hproc_cm]
        · rw [ihres.2.1, hatt, hframe.2.1, hproc_fb]
        · show (toolLoop env attempt.2 response processed.1 base_params n).2.rounds ≤
            s.rounds + (n + 1)
          have h1 := ihres.2.2.1
          have h2 : attempt.2.rounds = s.rounds + 1 := by
            rw [hatt, hframe.2.2.2, hproc_rounds]
          omega
        · intro hp
          refine ihres.2.2.2.1 ?_
          have hp1 : P processed.2.tool_manager := by
            rw [hproc_tm]
            exact execToolCalls_preserves henv resp.tool_calls s.tool_manager hp
          rw [hatt, hframe.2.2.1]
          exact hp1
        · intro c hc
          rcases ihres.2.2.2.2 c hc with h | ⟨hr1, hr2, ht, hch⟩
          · exact hshape' c h
          · refine .inr ⟨?_, hr2, ht, hch⟩
            simp only [MAX_TOOL_ROUNDS] at hr1 ⊢
            omega
      | error e =>
        refine ⟨?_, ?_, ?_, ?_, ?_⟩
        · show attempt.2.current_model = s.current_model
          rw [hatt, hframe.1, hproc_cm]
        · show attempt.2.fallback_models = s.fallback_models
          rw [hatt, hframe.2.1, hproc_fb]
        · show attempt.2.rounds ≤ s.rounds + (n + 1)
          have h2 : attempt.2.rounds = s.rounds + 1 := by
            rw [hatt, hframe.2.2.2, hproc_rounds]
          omega
        · intro hp
          show P attempt.2.tool_manager
          have hp1 : P processed.2.tool_manager := by
            rw [hproc_tm]
            exact execToolCalls_preserves henv resp.tool_calls s.tool_manager hp
          rw [hatt, hframe.2.2.1]
          exact hp1
        · intro c hc
          exact hshape' c hc

/-- The portmanteau invariant of the initial model loop of
`generate_response`: `current_model` and `fallback_models` survive, at
most `MAX_TOOL_ROUNDS` rounds are processed, dispatch-preserved
predicates on the registry state survive, and every logged call either
is an initial (round 0) call carrying exactly the prepared tool
attachment or an in-round call carrying tools exactly when its round is
below `MAX_TOOL_ROUNDS`. -/
theorem genLoop_invariants {τ : Type} (env : ProviderEnv τ) (P : τ → Prop)
    (henv : PreservesOnOk env P) (p : ApiParams) (messages : List Msg)
    (htm : Bool) :
    ∀ (models : List String) (s : AIGenerator τ),
      (genLoop env s p messages htm models).2.current_model =
        s.current_model ∧
      (genLoop env s p messages htm models).2.fallback_models =
        s.fallback_models ∧
      (genLoop env s p messages htm models).2.rounds ≤
        s.rounds + MAX_TOOL_ROUNDS ∧
      (P s.tool_manager →
        P (genLoop env s p messages htm models).2.tool_manager) ∧
      (∀ c ∈ (genLoop env s p messages htm models).2.calls,
        c ∈ s.calls ∨
          (c.round = 0 ∧ c.params.tools = p.tools ∧
            c.params.tool_choice = p.tool_choice) ∨
          (1 ≤ c.round ∧ c.round ≤ MAX_TOOL_ROUNDS ∧
            c.params.tools =
              (if decide (c.round < MAX_TOOL_ROUNDS) && p.tools.isSome then
                p.tools else none) ∧
            c.params.tool_choice =
              (if decide (c.round < MAX_TOOL_ROUNDS) && p.tools.isSome then
                some "auto" else none)))
  | [], s => by
    refine ⟨rfl, rfl, by simp [genLoop], fun h => h, ?_⟩
    intro c hc
    exact .inl (by simpa [genLoop] using hc)
  | m :: rest, s => by
    cases hc : env.create s.calls.length { p with model := m } with
    | ok response =>
      by_cases htool : (response.finish_reason == "tool_calls" && htm) = true
      · have hstep : genLoop env s p messages htm (m :: rest) =
            handle_tool_execution env
              { s with calls := s.calls ++ [⟨{ p with model := m }, 0, .ok response⟩], last_model_used := m }
              response messages { p with model := m } := by
          simp [genLoop, apiCreate, hc, htool]
        have hinv := toolLoop_invariants env P henv { p with model := m }
          MAX_TOOL_ROUNDS (le_refl _)
          { s with calls := s.calls ++ [⟨{ p with model := m }, 0, .ok response⟩], last_model_used := m }
          response messages
        rw [hstep]
        unfold handle_tool_execution
        refine ⟨hinv.1, hinv.2.1, ?_, hinv.2.2.2.1, ?_⟩
        · have h1 := hinv.2.2.1
          simpa using h1
        · intro c hcall
          rcases hinv.2.2.2.2 c hcall with h | ⟨h1, h2, h3, h4⟩
          · simp only [List.mem_append, List.mem_singleton] at h
            rcases h with h | h
            · exact .inl h
            · subst h
              exact .inr (.inl ⟨rfl, rfl, rfl⟩)
          · refine .inr (.inr ⟨?_, h2, h3, h4⟩)
            simp only [MAX_TOOL_ROUNDS] at h1
            omega
      · have hstep : genLoop env s p messages htm (m :: rest) =
            (response.content.getD "",
              { s with calls := s.calls ++ [⟨{ p with model := m }, 0, .ok response⟩], last_model_used := m }) := by
          simp [genLoop, apiCreate, hc, htool]
        rw [hstep]
        refine ⟨rfl, rfl, by simp, fun h => h, ?_⟩
        intro c hcall
        simp only [List.mem_append, List.mem_singleton] at hcall
        rcases hcall with h | h
        · exact .inl h
        · subst h
          exact .inr (.inl ⟨rfl, rfl, rfl⟩)
    | error e =>
      cases hrest : rest.isEmpty with
      | true =>
        have hstep : genLoop env s p messages htm (m :: rest) =
            (initialErrorMessage e,
              { s with calls := s.calls ++ [⟨{ p with model := m }, 0, .error e⟩] }) := by
          simp [genLoop, apiCreate, hc, hrest]
        rw [hstep]
        refine ⟨rfl, rfl, by simp, fun h => h, ?_⟩
        intro c hcall
        simp only [List.mem_append, List.mem_singleton] at hcall
        rcases hcall with h | h
        · exact .inl h
        · subst h
          exact .inr (.inl ⟨rfl, rfl, rfl⟩)
      | false =>
        have hstep : genLoop env s p messages htm (m :: rest) =
            genLoop env
              { s with calls := s.calls ++ [⟨{ p with model := m }, 0, .error e⟩] }
              p messages htm rest := by
          simp [genLoop, apiCreate, hc, hrest]
        have ih := genLoop_invariants env P henv p messages htm rest
          { s with calls := s.calls ++ [⟨{ p with model := m }, 0, .error e⟩] }
        rw [hstep]
        refine ⟨ih.1, ih.2.1, by simpa using ih.2.2.1, ih.2.2.2.1, ?_⟩
        intro c hcall
        rcases ih.2.2.2.2 c hcall with h | h
        · simp only [List.mem_append, List.mem_singleton] at h
          rcases h with h | h
          · exact .inl h
          · subst h
            exact .inr (.inl ⟨rfl, rfl, rfl⟩)
        · exact .inr h

/-- When every provider call fails, the initial model loop ends in the
inline classification of the last failure. -/
theorem genLoop_allfail {τ : Type} (env : ProviderEnv τ)
    (hfail : ∀ i q, ∃ e, env.create i q = .error e) (p : ApiParams)
    (messages : List Msg) (htm : Bool) :
    ∀ (models : List String) (s : AIGenerator τ), models ≠ [] →
      ∃ e, (genLoop env s p messages htm models).1 = initialErrorMessage e
  | [], _, h => absurd rfl h
  | [m], s, _ => by
    obtain ⟨e, he⟩ := hfail s.calls.length { p with model := m }
    refine ⟨e, ?_⟩
    simp [genLoop, apiCreate, he]
  | m :: m2 :: rest, s, _ => by
    obtain ⟨e, he⟩ := hfail s.calls.length { p with model := m }
    have ih := genLoop_allfail env hfail p messages htm (m2 :: rest)
      { s with calls := s.calls ++ [⟨{ p with model := m }, 0, .error e⟩] }
      (by simp)
    simpa [genLoop, apiCreate, he] using ih

theorem initialErrorMessage_ne_empty (e : String) :
    initialErrorMessage e ≠ "" := by
  unfold initialErrorMessage
  split
  · decide
  · split
    · decide
    · split
      · decide
      · intro h
        have h2 := congrArg String.length h
        rw [String.length_append] at h2
        have h3 : ("I'm experiencing technical difficulties. Error: " :
            String).length ≠ 0 := by decide
        have h4 : ("" : String).length = 0 := rfl
        rw [h4] at h2
        omega

/-! ### Claim theorems for the orchestrator -/

/-- C1 counterexample: a provider success whose message carries no
content makes generate_response return the empty string (the
`content or ""` default), so the claim that the return is non-empty for
every provider behaviour fails. -/
theorem generate_response_empty_content_counterexample :
    (let env : ProviderEnv Unit :=
      { create := fun _ _ => .ok ⟨"stop", none, []⟩,
        parse_json := fun _ => none,
        execute_tool := fun tm _ _ => .ok ("", tm) }
     let s : AIGenerator Unit := ⟨"model-a", [], "model-a", (), [], 0⟩
     (generate_response env s "hi" none none false).1 = "") := rfl

/-- C1 amended: generate_response is a total function of the provider
behaviour (no exception escapes its boundary), and when every provider
attempt fails it returns the non-empty categorized user-facing error
string; a successful response carrying empty or absent content,
however, is returned as the empty string. -/
theorem generate_response_allfail_nonempty {τ : Type} (env : ProviderEnv τ)
    (s : AIGenerator τ) (query : String) (history : Option String)
    (tools : Option (List ToolDef)) (htm : Bool)
    (hfail : ∀ i q, ∃ e, env.create i q = .error e) :
    (generate_response env s query history tools htm).1 ≠ "" ∧
    ∃ e, (generate_response env s query history tools htm).1 =
      initialErrorMessage e := by
  have key : ∃ e, (generate_response env s query history tools htm).1 =
      initialErrorMessage e := by
    unfold generate_response
    exact genLoop_allfail env hfail _ _ htm _ s (by simp [modelsToTry])
  refine ⟨?_, key⟩
  obtain ⟨e, he⟩ := key
  rw [he]
  exact initialErrorMessage_ne_empty e

/-- Witness for the amended C1 theorem: with a provider that always
fails, the returned string is non-empty and is the classification of
some underlying failure. -/
theorem generate_response_allfail_nonempty_witness :
    (let env : ProviderEnv Unit :=
      { create := fun _ _ => .error "boom",
        parse_json := fun _ => none,
        execute_tool := fun tm _ _ => .ok ("", tm) }
     let s : AIGenerator Unit := ⟨"model-a", ["model-b"], "model-a", (), [], 0⟩
     (generate_response env s "q" none none false).1 ≠ "" ∧
     ∃ e, (generate_response env s "q" none none false).1 =
       initialErrorMessage e) :=
  generate_response_allfail_nonempty _ _ "q" none none false
    (fun _ _ => ⟨"boom", rfl⟩)

/-- C2: in a tool-using exchange (tools supplied and truthy, registry
present), at most 2 tool rounds are processed; every outbound provider
call issued while the round counter was below 2 — including the initial
call — carries the supplied tool definitions with auto tool choice, and
a call issued once the counter reached 2 carries neither tool
definitions nor a tool choice, forcing a terminal textual answer. -/
theorem tool_rounds_bounded_and_attachment {τ : Type}
    (env : ProviderEnv τ) (s : AIGenerator τ) (query : String)
    (history : Option String) (ts : List ToolDef) (hts : ts ≠ [])
    (hcalls : s.calls = []) (hrounds : s.rounds = 0) :
    (generate_response env s query history (some ts) true).2.rounds ≤ 2 ∧
    (∀ c ∈ (generate_response env s query history (some ts) true).2.calls,
      c.round ≤ 2 ∧
      (c.round < 2 →
        c.params.tools = some ts ∧ c.params.tool_choice = some "auto") ∧
      (c.round = 2 →
        c.params.tools = none ∧ c.params.tool_choice = none)) := by
  have hempty : ts.isEmpty = false := by
    simpa [List.isEmpty_iff] using hts
  have htriv : PreservesOnOk env (fun _ => True) := by
    intro _ _ _ _ _ _ _
    trivial
  have hinv := genLoop_invariants env (fun _ => True) htriv
    { temperature := 0, max_tokens := 800,
      messages := [Msg.system (if pyTruthyOptStr history then
        SYSTEM_PROMPT ++ "\n\nPrevious conversation:\n" ++ history.getD ""
        else SYSTEM_PROMPT), Msg.user query],
      model := s.current_model, tools := some ts,
      tool_choice := some "auto" }
    [Msg.system (if pyTruthyOptStr history then
        SYSTEM_PROMPT ++ "\n\nPrevious conversation:\n" ++ history.getD ""
        else SYSTEM_PROMPT), Msg.user query]
    true (modelsToTry s.current_model s.fallback_models) s
  have hgen : generate_response env s query history (some ts) true =
      genLoop env s
        { temperature := 0, max_tokens := 800,
          messages := [Msg.system (if pyTruthyOptStr history then
            SYSTEM_PROMPT ++ "\n\nPrevious conversation:\n" ++ history.getD ""
            else SYSTEM_PROMPT), Msg.user query],
          model := s.current_model, tools := some ts,
          tool_choice := some "auto" }
        [Msg.system (if pyTruthyOptStr history then
          SYSTEM_PROMPT ++ "\n\nPrevious conversation:\n" ++ history.getD ""
          else SYSTEM_PROMPT), Msg.user query]
        true (modelsToTry s.current_model s.fallback_models) := by
    unfold generate_response
    simp only [hempty]
    rfl
  rw [hgen]
  constructor
  · have h1 := hinv.2.2.1
    rw [hrounds] at h1
    simpa [MAX_TOOL_ROUNDS] using h1
  · intro c hc
    rcases hinv.2.2.2.2 c hc with h | ⟨h0, htools0, hchoice0⟩ | ⟨h1, h2, h3, h4⟩
    · rw [hcalls] at h
      simp at h
    · refine ⟨by omega, ?_, ?_⟩
      · intro _
        exact ⟨by rw [htools0], by rw [hchoice0]⟩
      · intro habs
        rw [h0] at habs
        omega
    · simp only [MAX_TOOL_ROUNDS] at h2
      refine ⟨h2, ?_, ?_⟩
      · intro hlt
        constructor
        · rw [h3]
          simp [MAX_TOOL_ROUNDS, hlt]
        · rw [h4]
          simp [MAX_TOOL_ROUNDS, hlt]
      · intro heq
        constructor
        · rw [h3, heq]
          simp [MAX_TOOL_ROUNDS]
        · rw [h4, heq]
          simp [MAX_TOOL_ROUNDS]

/-- Witness for the C2 theorem: a concrete two-round exchange. -/
theorem tool_rounds_bounded_and_attachment_witness :
    (let env : ProviderEnv Unit :=
      { create := fun i _ =>
          if i == 0 then .ok ⟨"tool_calls", none, [⟨"c1", ⟨"t", "x"⟩⟩]⟩
          else if i == 1 then .ok ⟨"tool_calls", some "m", [⟨"c2", ⟨"t", "x"⟩⟩]⟩
          else .ok ⟨"stop", some "done", []⟩,
        parse_json := fun _ => some [],
        execute_tool := fun tm _ _ => .ok ("result", tm) }
     let s : AIGenerator Unit := ⟨"A", [], "A", (), [], 0⟩
     (generate_response env s "q" none (some ["defblob"]) true).2.rounds ≤ 2 ∧
     (∀ c ∈ (generate_response env s "q" none (some ["defblob"]) true).2.calls,
       c.round ≤ 2 ∧
       (c.round < 2 →
         c.params.tools = some ["defblob"] ∧
         c.params.tool_choice = some "auto") ∧
       (c.round = 2 →
         c.params.tools = none ∧ c.params.tool_choice = none))) :=
  tool_rounds_bounded_and_attachment _ _ "q" none ["defblob"]
    (by simp) rfl rfl

/-- C3: the fallback primitive attempts exactly the chain primary ::
(fallbacks with the primary removed, order preserved), in order,
stopping at the first success, whose response is the result; a failure
is surfaced only once every model of the chain has been attempted and
failed.  Concretely, for the chain [A, B, C]: when A fails and B
succeeds the result is B's output and C is never called; when A and B
fail and C succeeds, exactly 3 upstream calls occur. -/
theorem fallback_chain_first_success :
    (∀ (τ : Type) (env : ProviderEnv τ) (s : AIGenerator τ) (p : ApiParams)
        (round : Nat) (primary : String),
      ∃ recs : List CallRec,
        (make_api_call_with_fallback env s p round primary).2.calls =
          s.calls ++ recs ∧
        1 ≤ recs.length ∧
        recs.map (fun c => c.params.model) =
          (modelsToTry primary s.fallback_models).take recs.length ∧
        (∀ c ∈ recs.dropLast, ∃ e, c.result = .error e) ∧
        (match (make_api_call_with_fallback env s p round primary).1 with
         | .ok resp => ∃ c, recs.getLast? = some c ∧ c.result = .ok resp
         | .error e =>
            recs.length = (modelsToTry primary s.fallback_models).length ∧
            ∃ c, recs.getLast? = some c ∧ c.result = .error e)) ∧
    (let env : ProviderEnv Unit :=
      { create := fun _ q =>
          if q.model == "B" then .ok ⟨"stop", some "answer from B", []⟩
          else .error "A down",
        parse_json := fun _ => none,
        execute_tool := fun tm _ _ => .ok ("", tm) }
     let s : AIGenerator Unit := ⟨"A", ["B", "C"], "A", (), [], 0⟩
     (generate_response env s "q" none none false).1 = "answer from B" ∧
     (generate_response env s "q" none none false).2.calls.map
        (fun c => c.params.model) = ["A", "B"]) ∧
    (let env : ProviderEnv Unit :=
      { create := fun _ q =>
          if q.model == "C" then .ok ⟨"stop", some "answer from C", []⟩
          else .error "down",
        parse_json := fun _ => none,
        execute_tool := fun tm _ _ => .ok ("", tm) }
     let s : AIGenerator Unit := ⟨"A", ["B", "C"], "A", (), [], 0⟩
     (generate_response env s "q" none none false).1 = "answer from C" ∧
     (generate_response env s "q" none none false).2.calls.map
        (fun c => c.params.model) = ["A", "B", "C"]) := by
  refine ⟨?_, ⟨rfl, rfl⟩, ⟨rfl, rfl⟩⟩
  intro τ env s p round primary
  exact fallbackLoop_spec env p round
    (modelsToTry primary s.fallback_models) s (by simp [modelsToTry])

/-- C4: a tool round dispatches every requested call in order and never
aborts — the transcript gains exactly one result message per requested
call, ids matching; a call whose argument string fails to decode is
executed with the empty argument mapping; an exception raised by an
individual dispatch is caught and recorded as the textual
"Error executing tool: ..." result for that call. -/
theorem tool_round_dispatch_and_degradation (τ : Type) :
    (∀ (env : ProviderEnv τ) (s : AIGenerator τ) (resp : Response)
        (msgs : List Msg),
      (process_tool_round env s resp msgs).1 =
        msgs ++ [assistantMsgOf resp] ++
          (execToolCalls env s.tool_manager resp.tool_calls).1) ∧
    (∀ (env : ProviderEnv τ) (tm : τ) (tcs : List ToolCall),
      ∃ rs : List String, rs.length = tcs.length ∧
        (execToolCalls env tm tcs).1 =
          List.zipWith (fun tc r => Msg.tool tc.id r) tcs rs) ∧
    (∀ (env : ProviderEnv τ) (tm : τ) (tc : ToolCall),
      env.parse_json tc.function.arguments = none →
      exec_one_tool_call env tm tc =
        (match env.execute_tool tm tc.function.name [] with
         | .ok (r, tm') => (r, tm')
         | .error e => ("Error executing tool: " ++ e, tm))) ∧
    (∀ (env : ProviderEnv τ) (tm : τ) (tc : ToolCall) (e : String),
      env.execute_tool tm tc.function.name
          ((env.parse_json tc.function.arguments).getD []) = .error e →
      exec_one_tool_call env tm tc = ("Error executing tool: " ++ e, tm)) := by
  refine ⟨fun _ _ _ _ => rfl, ?_, ?_, ?_⟩
  · intro env tm tcs
    induction tcs generalizing tm with
    | nil => exact ⟨[], rfl, rfl⟩
    | cons tc rest ih =>
      obtain ⟨rs, hlen, hrs⟩ := ih (exec_one_tool_call env tm tc).2
      refine ⟨(exec_one_tool_call env tm tc).1 :: rs, by simp [hlen], ?_⟩
      simp [execToolCalls, List.zipWith, hrs]
  · intro env tm tc h
    unfold exec_one_tool_call
    rw [h]
    rfl
  · intro env tm tc e h
    unfold exec_one_tool_call
    rw [h]

/-- Witness for the C4 theorem: a failing dispatch with an undecodable
argument string yields the converted textual result and leaves the
registry state alone. -/
theorem tool_round_dispatch_and_degradation_witness :
    (let env : ProviderEnv Unit :=
      { create := fun _ _ => .error "unused",
        parse_json := fun _ => none,
        execute_tool := fun _ _ _ => .error "boom" }
     exec_one_tool_call env () ⟨"id1", ⟨"toolx", "notjson"⟩⟩ =
       ("Error executing tool: boom", ())) :=
  (tool_round_dispatch_and_degradation Unit).2.2.2 _ () ⟨"id1", ⟨"toolx", "notjson"⟩⟩
    "boom" rfl

/-- C9 counterexample: generate_response mutates the orchestrator's
`last_model_used` field whenever the successful model differs from the
previous value, so the citation lists are not the sole cross-call
mutable state. -/
theorem last_model_used_mutated_counterexample :
    (let env : ProviderEnv Unit :=
      { create := fun _ q =>
          if q.model == "A" then .error "A down"
          else .ok ⟨"stop", some "ok", []⟩,
        parse_json := fun _ => none,
        execute_tool := fun tm _ _ => .ok ("", tm) }
     let s : AIGenerator Unit := ⟨"A", ["B"], "A", (), [], 0⟩
     (generate_response env s "q" none none false).2.last_model_used = "B" ∧
     s.last_model_used = "A") := ⟨rfl, rfl⟩

/-- C9 amended: apart from the citation lists stored on the tools and
the orchestrator's `last_model_used` field (updated to the most recent
successful model), a completed generate_response call leaves every
orchestrator and registry instance field unchanged: `current_model`,
`fallback_models`, and the registry's registered names and tool stores
all survive. -/
theorem generate_response_frame
    (create : Nat → ApiParams → Except String Response)
    (parse_json : String → Option ArgMap)
    (s : AIGenerator ToolManager) (query : String)
    (history : Option String) (tools : Option (List ToolDef)) (htm : Bool) :
    (let env : ProviderEnv ToolManager :=
      ⟨create, parse_json, fun tm n a => ToolManager.execute_tool tm n a⟩
     (generate_response env s query history tools htm).2.current_model =
        s.current_model ∧
     (generate_response env s query history tools htm).2.fallback_models =
        s.fallback_models ∧
     toolFrame (generate_response env s query history tools htm).2.tool_manager
        = toolFrame s.tool_manager) := by
  intro env
  have henv : PreservesOnOk env
      (fun tm => toolFrame tm = toolFrame s.tool_manager) := by
    intro tm n a r tm' hok hp
    rw [execute_tool_toolFrame tm n a r tm' hok]
    exact hp
  refine ⟨?_, ?_, ?_⟩
  · exact (genLoop_invariants env _ henv _ _ htm _ s).1
  · exact (genLoop_invariants env _ henv _ _ htm _ s).2.1
  · exact (genLoop_invariants env _ henv _ _ htm _ s).2.2.2.1 rfl

/-- C10: the registry's execute_tool forwards the caller's keyword
arguments verbatim to the registered tool and does not catch the tool's
exceptions — in particular, the empty argument mapping left by
malformed-argument degradation raises the missing-`query` binding error
rather than returning a textual result; only the unknown-name case
returns the textual "Tool '<name>' not found" result; and the
conversion of tool exceptions to text happens solely in the
orchestrator's round loop. -/
theorem execute_tool_forwarding_and_raising :
    (∀ (tm : ToolManager) (name : String) (args : ArgMap),
      List.lookup name tm.tools = none →
      tm.execute_tool name args =
        .ok ("Tool '" ++ name ++ "' not found", tm)) ∧
    (∀ (tm : ToolManager) (name : String) (t : CourseSearchTool),
      List.lookup name tm.tools = some t →
      tm.execute_tool name [] = .error missingQueryMessage) ∧
    (∀ (tm : ToolManager) (name : String) (t : CourseSearchTool)
        (args : ArgMap) (e : String),
      List.lookup name tm.tools = some t →
      callSearchExecute t args = .error e →
      tm.execute_tool name args = .error e) ∧
    (∀ (tm : ToolManager) (name : String) (t : CourseSearchTool)
        (args : ArgMap) (out : String) (t' : CourseSearchTool),
      List.lookup name tm.tools = some t →
      callSearchExecute t args = .ok (out, t') →
      tm.execute_tool name args =
        .ok (out, ToolManager.mk (updateTool name t' tm.tools))) ∧
    (∀ (create : Nat → ApiParams → Except String Response)
        (parse_json : String → Option ArgMap) (tm : ToolManager)
        (tc : ToolCall) (t : CourseSearchTool),
      parse_json tc.function.arguments = none →
      List.lookup tc.function.name tm.tools = some t →
      exec_one_tool_call
          ⟨create, parse_json, fun m n a => ToolManager.execute_tool m n a⟩
          tm tc =
        ("Error executing tool: " ++ missingQueryMessage, tm)) := by
  have hmiss : ∀ (t : CourseSearchTool),
      callSearchExecute t [] = .error missingQueryMessage := by
    intro t
    rfl
  refine ⟨?_, ?_, ?_, ?_, ?_⟩
  · intro tm name args hlook
    simp [ToolManager.execute_tool, hlook]
  · intro tm name t hlook
    simp [ToolManager.execute_tool, hlook, hmiss]
  · intro tm name t args e hlook hcall
    simp [ToolManager.execute_tool, hlook, hcall]
  · intro tm name t args out t' hlook hcall
    simp [ToolManager.execute_tool, hlook, hcall]
  · intro create parse_json tm tc t hparse hlook
    simp [exec_one_tool_call, hparse, ToolManager.execute_tool, hlook, hmiss]

/-- Witness for the C10 theorem: a registry with one registered search
tool raises on the empty mapping, answers textually for an unknown
name, and the round loop converts the raised binding error. -/
theorem execute_tool_forwarding_and_raising_witness :
    (let store : VectorStore :=
      { search := fun _ _ _ => ⟨[], [], none⟩,
        get_lesson_link := fun _ _ => none }
     let tm : ToolManager := ⟨[("search_course_content", ⟨store, []⟩)]⟩
     tm.execute_tool "search_course_content" [] =
        .error missingQueryMessage ∧
     tm.execute_tool "nope" [] = .ok ("Tool '" ++ "nope" ++ "' not found", tm) ∧
     exec_one_tool_call
        ⟨fun _ _ => .error "unused", fun _ => none,
          fun m n a => ToolManager.execute_tool m n a⟩
        tm ⟨"id1", ⟨"search_course_content", "not valid json"⟩⟩ =
        ("Error executing tool: " ++ missingQueryMessage, tm)) := by
  refine ⟨?_, ?_, ?_⟩
  · exact execute_tool_forwarding_and_raising.2.1 _ "search_course_content" _ rfl
  · exact execute_tool_forwarding_and_raising.1 _ "nope" [] rfl
  · exact execute_tool_forwarding_and_raising.2.2.2.2 _ _ _
      ⟨"id1", ⟨"search_course_content", "not valid json"⟩⟩ _ rfl rfl

end RagCore
